import Mathlib

/-!
Verification of the lawyer-matching application in src/main.py against its
natural-language specification.  Strings from the Python side are modelled as
Lean String values; the character-level helpers below reproduce the Python
string primitives used by the source (str.lower, str.strip, str.split,
str.join, str.replace, "in", str.endswith, slicing).  A Python function that
can raise is embedded as an Option/Except-returning function, with none /
.error marking the raised exception.
-/

set_option maxRecDepth 10000

abbrev LC := List Char

/-- Whitespace characters recognised by Python's str.split / str.strip
(ASCII subset; the data handled by the app is ASCII). -/
def isWS (c : Char) : Bool :=
  c = ' ' || c = '\t' || c = '\n' || c = '\r' || c = '\x0b' || c = '\x0c'

/-- Python str.lower, per character (ASCII range, which covers the app's data). -/
def lowerChar (c : Char) : Char := Char.toLower c

/-- Python str.lower on a whole string. -/
def pyLower (l : LC) : LC := l.map lowerChar

/-- Python str.lstrip(). -/
def lstrip (l : LC) : LC := l.dropWhile isWS

/-- Python str.rstrip(). -/
def rstrip (l : LC) : LC := (l.reverse.dropWhile isWS).reverse

/-- Python str.strip(). -/
def pyStrip (l : LC) : LC := rstrip (lstrip l)

/-- One step of the whitespace chunker: fold over the characters from the
right, opening a fresh chunk at each whitespace character. -/
def wchunkStep (c : Char) (acc : List LC) : List LC :=
  if isWS c then [] :: acc
  else
    match acc with
    | [] => [[c]]
    | w :: ws => (c :: w) :: ws

/-- Whitespace-separated chunks of a string, including empty chunks. -/
def wchunks (l : LC) : List LC := l.foldr wchunkStep [[]]

/-- Python str.split() with no argument: whitespace-delimited tokens,
empty tokens discarded. -/
def pySplitWS (l : LC) : List LC := (wchunks l).filter (fun w => !w.isEmpty)

/-- Python ' '.join(tokens). -/
def unwords : List LC → LC
  | [] => []
  | [w] => w
  | w :: ws => w ++ ' ' :: unwords ws

/-- Python two-character replacement s.replace(ab, r): left-to-right,
non-overlapping, every occurrence. -/
def replace2 (a b r : Char) : LC → LC
  | [] => []
  | [c] => [c]
  | c :: d :: rest =>
    if c = a ∧ d = b then r :: replace2 a b r rest
    else c :: replace2 a b r (d :: rest)

/-- Predicate of the line-25 comprehension: keep a token only when it
contains neither parenthesis character. -/
def noParen (p : LC) : Bool := !(p.contains '(') && !(p.contains ')')

/-- Core of standardize_name (src/main.py lines 24-33), starting from the
token list of the lowercased, stripped input.  Returns none where the Python
code raises IndexError (name.split()[-1] on an empty split). -/
def stdCore (toks0 : List LC) : Option LC :=
  -- line 25: drop tokens containing a parenthesis, rejoin with single spaces
  let toks := toks0.filter noParen
  let n := unwords toks
  -- lines 26-28: if more than two tokens remain, keep first and last
  let parts := pySplitWS n
  let n := if parts.length > 2 then (parts.headD []) ++ ' ' :: (parts.getLastD []) else n
  -- line 29: name.replace('- ', '-').replace(' -', '-')
  let n := replace2 ' ' '-' '-' (replace2 '-' ' ' '-' n)
  -- lines 30-32: last_name = name.split()[-1]; strip a trailing 's'
  match (pySplitWS n).getLast? with
  | none => none
  | some last =>
    if last.getLast? = some 's' then
      some (unwords ((pySplitWS n).dropLast) ++ ' ' :: last.dropLast)
    else some n

/-- standardize_name (src/main.py lines 19-33) on a string input (an input
that passes the NaN / type guard).  none models the IndexError raised at
line 30 when the split is empty. -/
def standardize_name (name : String) : Option String :=
  (stdCore (pySplitWS (pyStrip (pyLower name.data)))).map (fun l => String.mk l)

/-- The whitespace chunker never returns an empty list of chunks. -/
theorem wchunks_ne_nil (l : LC) : wchunks l ≠ [] := by
  induction l with
  | nil => simp [wchunks]
  | cons c l ih =>
    show wchunkStep c (wchunks l) ≠ []
    unfold wchunkStep
    split
    · simp
    · cases h : wchunks l with
      | nil => exact absurd h ih
      | cons w ws => simp

/-- Every character of every chunk is a non-whitespace character. -/
theorem wchunks_no_ws (l : LC) : ∀ w ∈ wchunks l, ∀ c ∈ w, isWS c = false := by
  induction l with
  | nil => intro w hw; simp [wchunks] at hw; simp [hw]
  | cons c l ih =>
    intro w hw
    have hstep : wchunks (c :: l) = wchunkStep c (wchunks l) := rfl
    rw [hstep] at hw
    unfold wchunkStep at hw
    by_cases hc : isWS c = true
    · simp [hc] at hw
      rcases hw with h | h
      · simp [h]
      · exact ih w h
    · simp [hc] at hw
      cases h : wchunks l with
      | nil => exact absurd h (wchunks_ne_nil l)
      | cons w0 ws =>
        rw [h] at hw
        simp at hw
        rcases hw with h1 | h1
        · intro d hd
          rw [h1] at hd
          simp at hd
          rcases hd with h2 | h2
          · rw [h2]; simpa using hc
          · exact ih w0 (by simp [h]) d h2
        · exact ih w (by simp [h, h1])

/-- Folding the chunk step with an extra empty chunk appended to the seed
just appends it to the result. -/
theorem foldr_wchunkStep_seed (l : LC) (t : List LC) :
    l.foldr wchunkStep ([] :: t) = wchunks l ++ t := by
  induction l with
  | nil => simp [wchunks]
  | cons c l ih =>
    show wchunkStep c (l.foldr wchunkStep ([] :: t)) = wchunkStep c (wchunks l) ++ t
    rw [ih]
    cases h : wchunks l with
    | nil => exact absurd h (wchunks_ne_nil l)
    | cons w ws =>
      unfold wchunkStep
      split
      · simp
      · simp

/-- The chunks of an all-whitespace string are all empty. -/
theorem wchunks_all_ws (ws : LC) (h : ∀ c ∈ ws, isWS c = true) :
    ∃ t, wchunks ws = [] :: t ∧ ∀ w ∈ t, w = [] := by
  induction ws with
  | nil => exact ⟨[], rfl, by simp⟩
  | cons c l ih =>
    have hc : isWS c = true := h c (by simp)
    obtain ⟨t, ht, hall⟩ := ih (fun d hd => h d (by simp [hd]))
    refine ⟨t.cons [], ?_, ?_⟩
    · show wchunkStep c (wchunks l) = [] :: [] :: t
      rw [ht]; unfold wchunkStep; simp [hc]
    · intro w hw
      simp at hw
      rcases hw with h1 | h1
      · exact h1
      · exact hall w h1

/-- Appending trailing whitespace does not change the token list. -/
theorem pySplitWS_append_ws (l ws : LC) (h : ∀ c ∈ ws, isWS c = true) :
    pySplitWS (l ++ ws) = pySplitWS l := by
  obtain ⟨t, ht, hall⟩ := wchunks_all_ws ws h
  have h1 : wchunks (l ++ ws) = wchunks l ++ t := by
    show (l ++ ws).foldr wchunkStep [[]] = _
    rw [List.foldr_append]
    show l.foldr wchunkStep (wchunks ws) = _
    rw [ht]
    exact foldr_wchunkStep_seed l t
  unfold pySplitWS
  rw [h1, List.filter_append]
  have h2 : t.filter (fun w => !w.isEmpty) = [] := by
    apply List.filter_eq_nil_iff.mpr
    intro w hw
    rw [hall w hw]
    simp
  rw [h2, List.append_nil]

/-- A leading whitespace character does not change the token list. -/
theorem pySplitWS_cons_ws (c : Char) (l : LC) (h : isWS c = true) :
    pySplitWS (c :: l) = pySplitWS l := by
  unfold pySplitWS
  have : wchunks (c :: l) = [] :: wchunks l := by
    show wchunkStep c (wchunks l) = _
    unfold wchunkStep; simp [h]
  rw [this]
  simp

/-- Python str.lstrip does not change the token list of str.split. -/
theorem pySplitWS_lstrip (l : LC) : pySplitWS (lstrip l) = pySplitWS l := by
  induction l with
  | nil => rfl
  | cons c l ih =>
    by_cases hc : isWS c = true
    · have h1 : lstrip (c :: l) = lstrip l := by
        unfold lstrip
        simp [List.dropWhile, hc]
      rw [h1, ih, pySplitWS_cons_ws c l hc]
    · have h1 : lstrip (c :: l) = c :: l := by
        unfold lstrip
        simp [List.dropWhile, hc]
      rw [h1]

/-- Python str.rstrip does not change the token list of str.split. -/
theorem pySplitWS_rstrip (l : LC) : pySplitWS (rstrip l) = pySplitWS l := by
  have hws : ∀ c ∈ (l.reverse.takeWhile isWS).reverse, isWS c = true := by
    intro c hc
    rw [List.mem_reverse] at hc
    exact List.mem_takeWhile_imp hc
  have hjoin : rstrip l ++ (l.reverse.takeWhile isWS).reverse = l := by
    unfold rstrip
    rw [← List.reverse_append, List.takeWhile_append_dropWhile, List.reverse_reverse]
  rw [← pySplitWS_append_ws (rstrip l) _ hws, hjoin]

/-- Python str.strip does not change the token list of str.split. -/
theorem pySplitWS_pyStrip (l : LC) : pySplitWS (pyStrip l) = pySplitWS l := by
  unfold pyStrip
  rw [pySplitWS_rstrip, pySplitWS_lstrip]

/-- Every token produced by the splitter is non-empty and whitespace-free. -/
theorem pySplitWS_tokens (l : LC) :
    ∀ w ∈ pySplitWS l, w ≠ [] ∧ ∀ c ∈ w, isWS c = false := by
  intro w hw
  unfold pySplitWS at hw
  rw [List.mem_filter] at hw
  refine ⟨by simpa using hw.2, wchunks_no_ws l w hw.1⟩

/-- Chunking a whitespace-free block appended to a rest string extends the
first chunk of the rest. -/
theorem wchunks_block_append (w m : LC) (hw : ∀ c ∈ w, isWS c = false)
    (h0 t0 : _) (hm : wchunks m = h0 :: t0) :
    wchunks (w ++ m) = (w ++ h0) :: t0 := by
  induction w with
  | nil => simpa using hm
  | cons c cs ih =>
    have hc : isWS c = false := hw c (by simp)
    have ih' := ih (fun d hd => hw d (by simp [hd]))
    show wchunkStep c (wchunks (cs ++ m)) = ((c :: cs) ++ h0) :: t0
    rw [ih']
    unfold wchunkStep
    simp [hc]

/-- Splitting the space-join of non-empty whitespace-free tokens recovers
exactly those tokens. -/
theorem pySplitWS_unwords (ws : List LC)
    (h : ∀ w ∈ ws, w ≠ [] ∧ ∀ c ∈ w, isWS c = false) :
    pySplitWS (unwords ws) = ws := by
  induction ws with
  | nil => rfl
  | cons w rest ih =>
    obtain ⟨hne, hnws⟩ := h w (by simp)
    cases rest with
    | nil =>
      show pySplitWS w = [w]
      have h1 : wchunks (w ++ []) = (w ++ []) :: [] :=
        wchunks_block_append w [] hnws [] [] rfl
      rw [List.append_nil] at h1
      unfold pySplitWS
      rw [h1]
      simp [hne]
    | cons w2 rest2 =>
      show pySplitWS (w ++ ' ' :: unwords (w2 :: rest2)) = w :: w2 :: rest2
      have h2 : wchunks (' ' :: unwords (w2 :: rest2)) =
          [] :: wchunks (unwords (w2 :: rest2)) := by
        show wchunkStep ' ' (wchunks (unwords (w2 :: rest2))) = _
        unfold wchunkStep
        simp [isWS]
      have h1 : wchunks (w ++ ' ' :: unwords (w2 :: rest2)) =
          (w ++ []) :: wchunks (unwords (w2 :: rest2)) :=
        wchunks_block_append w _ hnws _ _ h2
      rw [List.append_nil] at h1
      unfold pySplitWS
      rw [h1]
      have ih' := ih (fun x hx => h x (by simp [hx]))
      unfold pySplitWS at ih'
      simp [hne, ih']

/-- Canonicalisation pipeline exactly as the specification words it
(claim C7): lowercase; remove parenthetical segments (the tokens holding a
parenthesis); keep first and last token when more than two remain; normalize
hyphen spacing; strip a single trailing s from the final token.  The final
step is taken at the spec's word: the last token merely loses its s. -/
def specStepsCore (toks0 : List LC) : Option LC :=
  let toks := toks0.filter noParen
  let toks2 := if toks.length > 2 then [toks.headD [], toks.getLastD []] else toks
  let n := unwords toks2
  let n := replace2 ' ' '-' '-' (replace2 '-' ' ' '-' n)
  match (pySplitWS n).getLast? with
  | none => none
  | some last =>
    if last.getLast? = some 's' then
      some (unwords ((pySplitWS n).dropLast ++ [last.dropLast]))
    else some n

/-- The specification's step list (claim C7) applied to a name string. -/
def spec_standardize_steps (name : String) : Option String :=
  (specStepsCore (pySplitWS (pyLower name.data))).map (fun l => String.mk l)

/-- Same pipeline with the final step amended to what the code computes: the
result is rebuilt as join(all but last token) + a space + the last token
without its trailing s, which prepends a space when only one token remains. -/
def specStepsCoreA (toks0 : List LC) : Option LC :=
  let toks := toks0.filter noParen
  let toks2 := if toks.length > 2 then [toks.headD [], toks.getLastD []] else toks
  let n := unwords toks2
  let n := replace2 ' ' '-' '-' (replace2 '-' ' ' '-' n)
  match (pySplitWS n).getLast? with
  | none => none
  | some last =>
    if last.getLast? = some 's' then
      some (unwords ((pySplitWS n).dropLast) ++ ' ' :: last.dropLast)
    else some n

/-- The amended step list applied to a name string. -/
def spec_standardize_amended (name : String) : Option String :=
  (specStepsCoreA (pySplitWS (pyLower name.data))).map (fun l => String.mk l)

/-- On any token list coming out of the splitter, the amended spec pipeline
core coincides with the code's core. -/
theorem specStepsCoreA_eq_stdCore (toks0 : List LC)
    (h : ∀ w ∈ toks0, w ≠ [] ∧ ∀ c ∈ w, isWS c = false) :
    specStepsCoreA toks0 = stdCore toks0 := by
  have hf : ∀ w ∈ toks0.filter noParen, w ≠ [] ∧ ∀ c ∈ w, isWS c = false := by
    intro w hw
    exact h w (List.mem_of_mem_filter hw)
  have hps := pySplitWS_unwords (toks0.filter noParen) hf
  unfold specStepsCoreA stdCore
  simp only [hps]
  by_cases hlen : (toks0.filter noParen).length > 2
  · simp only [if_pos hlen]
    rfl
  · simp only [if_neg hlen]

/-- The amended specification pipeline computes exactly standardize_name. -/
theorem spec_standardize_amended_eq (name : String) :
    spec_standardize_amended name = standardize_name name := by
  unfold spec_standardize_amended standardize_name
  rw [pySplitWS_pyStrip]
  rw [specStepsCoreA_eq_stdCore _ (pySplitWS_tokens _)]

example : spec_standardize_steps "jones" = some "jone" := by decide

/-- When sep is an initial segment of l, the remainder after it. -/
def stripSub? : LC → LC → Option LC
  | [], l => some l
  | _ :: _, [] => none
  | s :: ss, c :: cs => if c = s then stripSub? ss cs else none

theorem stripSub?_length_le (sep l rest : LC) (h : stripSub? sep l = some rest) :
    rest.length ≤ l.length := by
  induction sep generalizing l with
  | nil =>
    simp only [stripSub?] at h
    cases h
    exact Nat.le_refl _
  | cons s ss ih =>
    cases l with
    | nil => simp [stripSub?] at h
    | cons c cs =>
      simp only [stripSub?] at h
      split at h
      · exact Nat.le_trans (ih cs h) (Nat.le_succ _)
      · cases h

/-- Python substring membership test (the "in" operator on strings). -/
def containsSub (pat : LC) : LC → Bool
  | [] => (stripSub? pat []).isSome
  | c :: cs => (stripSub? pat (c :: cs)).isSome || containsSub pat cs

/-- Fuelled worker for Python str.split(sep) with a non-empty separator:
left-to-right, non-overlapping.  The fuel is the string length, which always
suffices. -/
def splitGo (sep : LC) : Nat → LC → LC → List LC
  | 0, l, acc => [acc.reverse ++ l]
  | fuel + 1, l, acc =>
    match l with
    | [] => [acc.reverse]
    | c :: cs =>
      match stripSub? sep l with
      | some rest => acc.reverse :: splitGo sep fuel rest []
      | none => splitGo sep fuel cs (c :: acc)

/-- Python str.split(sep) for a non-empty separator sep. -/
def splitOnSub (sep l : LC) : List LC := splitGo sep l.length l []

example : splitOnSub "::".data "a::b::c".data = ["a".data, "b".data, "c".data] := by decide
example : splitOnSub [','] "".data = [[]] := by decide
example : splitOnSub [','] ",a,".data = [[], "a".data, []] := by decide
example : containsSub ":".data "ab:c".data = true := by decide
example : containsSub "yes".data "busy".data = false := by decide
example : containsSub [] "x".data = true := by decide

/-- A parsed key/value store with Python dict semantics on string keys:
assignment overwrites an existing key in place, otherwise appends. -/
def dinsert (k v : LC) : List (LC × LC) → List (LC × LC)
  | [] => [(k, v)]
  | (k', v') :: rest => if k' = k then (k, v) :: rest else (k', v') :: dinsert k v rest

/-- Dictionary lookup. -/
def dget (k : LC) : List (LC × LC) → Option LC
  | [] => none
  | (k', v') :: rest => if k' = k then some v' else dget k rest

/-- Digit test and accumulation for pandas to_numeric / float parsing. -/
def allDigits (l : LC) : Bool := l.all Char.isDigit

def digitsVal (l : LC) : Nat := l.foldl (fun n c => n * 10 + (c.toNat - 48)) 0

/-- Numeric parse of a decimal literal (optional sign, digits, optional
fractional part), the fragment of pandas to_numeric exercised by the app;
scientific notation is not modelled.  none is pandas' ValueError. -/
def parseQ (l : LC) : Option ℚ :=
  let l := pyStrip l
  let signed : Bool × LC :=
    match l with
    | '-' :: rest => (true, rest)
    | '+' :: rest => (false, rest)
    | _ => (false, l)
  let body := signed.2
  let mag : Option ℚ :=
    match splitOnSub ['.'] body with
    | [d] => if d.isEmpty || !allDigits d then none else some (mkRat (digitsVal d) 1)
    | [a, b] =>
      if (a.isEmpty && b.isEmpty) || !allDigits a || !allDigits b then none
      else some (mkRat (digitsVal a * 10 ^ b.length + digitsVal b) (10 ^ b.length))
    | _ => none
  mag.map (fun q => if signed.1 then Rat.neg q else q)

example : parseQ " 12 ".data = some (mkRat 12 1) := by decide
example : parseQ "2.5".data = some (mkRat 5 2) := by decide
example : parseQ "-3".data = some (Rat.neg (mkRat 3 1)) := by decide
example : parseQ "".data = none := by decide
example : parseQ "x1".data = none := by decide

/-- One row of the result table built by parse_claude_response: the five
columns of desired_columns, with none for a missing (NaN) cell; Rank is
numeric after pd.to_numeric. -/
structure Row where
  rank : Option ℚ
  name : Option LC
  keyExpertise : Option LC
  availability : Option LC
  reason : Option LC
deriving DecidableEq

/-- Exceptions parse_claude_response can raise: KeyError from
df[desired_columns] when a desired column exists in no block, ValueError
from pd.to_numeric on a non-numeric rank. -/
inductive PyError
  | keyError
  | valueError
deriving DecidableEq

/-- Ascending comparison on the numeric Rank column, with NaN (none)
ordered last as in pandas sort_values. -/
def rankLE : Option ℚ → Option ℚ → Bool
  | _, none => true
  | none, some _ => false
  | some a, some b => a ≤ b

theorem rankLE_total (a b : Option ℚ) : rankLE a b || rankLE b a := by
  cases a with
  | none => cases b <;> simp [rankLE]
  | some x =>
    cases b with
    | none => simp [rankLE]
    | some y =>
      simp only [rankLE, Bool.or_eq_true, decide_eq_true_eq]
      exact le_total x y

/-- Insert a row into a rank-sorted list, after every row it does not
strictly precede. -/
def insertRow (r : Row) : List Row → List Row
  | [] => [r]
  | x :: xs => if rankLE x.rank r.rank then x :: insertRow r xs else r :: x :: xs

/-- Sort rows ascending by numeric rank (sort_values('Rank')). -/
def sortRows (l : List Row) : List Row := l.foldl (fun acc r => insertRow r acc) []

theorem rankLE_trans (a b c : Option ℚ) (h1 : rankLE a b = true)
    (h2 : rankLE b c = true) : rankLE a c = true := by
  cases c with
  | none => simp [rankLE]
  | some z =>
    cases b with
    | none => simp [rankLE] at h2
    | some y =>
      cases a with
      | none => simp [rankLE] at h1
      | some x =>
        simp only [rankLE, decide_eq_true_eq] at h1 h2 ⊢
        exact le_trans h1 h2

theorem mem_insertRow (r b : Row) (l : List Row) :
    b ∈ insertRow r l ↔ b = r ∨ b ∈ l := by
  induction l with
  | nil => simp [insertRow]
  | cons x xs ih =>
    simp only [insertRow]
    split
    · simp only [List.mem_cons, ih]
      tauto
    · simp only [List.mem_cons]

theorem insertRow_sorted (r : Row) (l : List Row)
    (h : l.Pairwise (fun a b => rankLE a.rank b.rank = true)) :
    (insertRow r l).Pairwise (fun a b => rankLE a.rank b.rank = true) := by
  induction l with
  | nil => simp [insertRow]
  | cons x xs ih =>
    rw [List.pairwise_cons] at h
    simp only [insertRow]
    by_cases hc : rankLE x.rank r.rank = true
    · simp only [if_pos hc]
      rw [List.pairwise_cons]
      refine ⟨?_, ih h.2⟩
      intro b hb
      rcases (mem_insertRow r b xs).mp hb with hbr | hbx
      · rw [hbr]; exact hc
      · exact h.1 b hbx
    · simp only [if_neg hc]
      rw [List.pairwise_cons]
      have hrx : rankLE r.rank x.rank = true := by
        have := rankLE_total x.rank r.rank
        rw [Bool.or_eq_true] at this
        rcases this with h1 | h1
        · exact absurd h1 hc
        · exact h1
      refine ⟨?_, List.pairwise_cons.mpr h⟩
      intro b hb
      rcases List.mem_cons.mp hb with hbx | hbxs
      · rw [hbx]; exact hrx
      · exact rankLE_trans _ _ _ hrx (h.1 b hbxs)

/-- The output of sortRows is sorted ascending by rank. -/
theorem sortRows_sorted (l : List Row) :
    (sortRows l).Pairwise (fun a b => rankLE a.rank b.rank = true) := by
  have haux : ∀ (l : List Row) (acc : List Row),
      acc.Pairwise (fun a b => rankLE a.rank b.rank = true) →
      (l.foldl (fun acc r => insertRow r acc) acc).Pairwise
        (fun a b => rankLE a.rank b.rank = true) := by
    intro l
    induction l with
    | nil => intro acc hacc; simpa using hacc
    | cons x xs ih =>
      intro acc hacc
      exact ih _ (insertRow_sorted x acc hacc)
  exact haux l [] (by simp)

def kRank : LC := "Rank".data
def kName : LC := "Name".data
def kKeyExpertise : LC := "Key Expertise".data
def kAvailability : LC := "Availability".data
def kReason : LC := "Recommendation Reason".data
def sMATCH_START : LC := "MATCH_START".data
def sMATCH_END : LC := "MATCH_END".data

/-- One line of a block: a line containing a colon contributes
key.strip() -> value.strip() (split at the first colon), any other line is
ignored (src/main.py lines 262-265). -/
def parseLine (d : List (LC × LC)) (line : LC) : List (LC × LC) :=
  if line.contains ':' then
    dinsert (pyStrip (line.takeWhile (fun c => c ≠ ':')))
      (pyStrip ((line.dropWhile (fun c => c ≠ ':')).drop 1)) d
  else d

/-- Dictionary built from one MATCH_START block: text up to MATCH_END (or
all of it when the end marker is absent), stripped, split into lines
(src/main.py lines 259-265). -/
def blockDict (block : LC) : List (LC × LC) :=
  (splitOnSub ['\n'] (pyStrip ((splitOnSub sMATCH_END block).headD []))).foldl
    parseLine []

/-- The non-empty per-block dictionaries of a response (src/main.py lines
257-268): split on MATCH_START, skip the leading piece, keep blocks whose
dictionary is non-empty. -/
def parseDicts (response : LC) : List (List (LC × LC)) :=
  ((splitOnSub sMATCH_START response).drop 1).filterMap
    (fun block =>
      let d := blockDict block
      if d.isEmpty then none else some d)

/-- df[desired_columns] raises KeyError when some desired column occurs in
no block dictionary (pandas builds the column set as the union of the dict
keys). -/
def missingColumn (dicts : List (List (LC × LC))) : Bool :=
  !([kRank, kName, kKeyExpertise, kAvailability, kReason].all
      (fun k => dicts.any (fun d => (dget k d).isSome)))

/-- One DataFrame row from a block dictionary, with pd.to_numeric applied
to the Rank cell: a missing cell stays NaN (none), a non-numeric string
raises ValueError. -/
def toRow (d : List (LC × LC)) : Except PyError Row :=
  match dget kRank d with
  | none => .ok ⟨none, dget kName d, dget kKeyExpertise d, dget kAvailability d, dget kReason d⟩
  | some s =>
    match parseQ s with
    | none => .error .valueError
    | some q => .ok ⟨some q, dget kName d, dget kKeyExpertise d, dget kAvailability d, dget kReason d⟩

/-- parse_claude_response (src/main.py lines 255-281).  An empty match list
gives an empty DataFrame which is returned as-is; otherwise the frame is
restricted to desired_columns (KeyError when one is absent from every
block), Rank is converted to numbers (ValueError when non-numeric), and the
rows are sorted ascending by Rank.  pandas' default sort is not stable for
equal keys; the model uses a stable sort, which agrees with it on the
distinct-rank inputs considered here. -/
def parse_claude_response (response : LC) : Except PyError (List Row) :=
  let dicts := parseDicts response
  if dicts.isEmpty then .ok []
  else if missingColumn dicts then .error .keyError
  else (dicts.mapM toRow).map sortRows

/-- Any successfully returned row list is sorted ascending by rank. -/
theorem parse_claude_response_sorted (response : LC) (rows : List Row)
    (h : parse_claude_response response = .ok rows) :
    rows.Pairwise (fun a b => rankLE a.rank b.rank = true) := by
  unfold parse_claude_response at h
  simp only [] at h
  split at h
  · cases h
    simp
  · split at h
    · cases h
    · cases hm : (parseDicts response).mapM toRow with
      | error e => rw [hm] at h; simp [Except.map] at h
      | ok rs =>
        rw [hm] at h
        simp only [Except.map] at h
        cases h
        exact sortRows_sorted rs

example : standardize_name "jones" = some " jone" := by decide
example : standardize_name "  Jane A. Doe " = some "jane doe" := by decide
example : standardize_name "" = none := by decide
example : standardize_name "   " = none := by decide
example : standardize_name "(ab) (cd)" = none := by decide
example : standardize_name "a- b" = some "a-b" := by decide
example : standardize_name "Anne -Li" = some "anne-li" := by decide

/-- clean_text_field (src/main.py lines 35-39): NaN or non-string gives the
empty string, a string is stripped. -/
def clean_text_field (text : Option String) : String :=
  match text with
  | none => ""
  | some s => String.mk (pyStrip s.data)

/-- Python sep.join(parts). -/
def joinSep (sep : LC) : List LC → LC
  | [] => []
  | [w] => w
  | w :: ws => w ++ sep ++ joinSep sep ws

/-- format_practice_areas (src/main.py lines 49-63): split on the first
delimiter found among comma, semicolon, newline; drop empty or
whitespace-only areas; bullet the rest. -/
def format_practice_areas (practice_areas : LC) : LC :=
  if practice_areas.isEmpty then ("Not specified").data
  else
    let areas :=
      if containsSub [','] practice_areas then
        (splitOnSub [','] practice_areas).map pyStrip
      else if containsSub [';'] practice_areas then
        (splitOnSub [';'] practice_areas).map pyStrip
      else if containsSub ['\n'] practice_areas then
        (splitOnSub ['\n'] practice_areas).map pyStrip
      else [practice_areas]
    let areas := areas.filter (fun a => !a.isEmpty && !(a.all isWS))
    if areas.isEmpty then ("Not specified").data
    else ("\n      • ").data ++ joinSep ("\n      • ").data areas

/-- One summarised lawyer (the dict built at src/main.py lines 171-184). -/
structure Summary where
  name : String
  availability_status : String
  practice_areas : String
  experience : String
  days_available : String
  hours_available : String
deriving DecidableEq

/-- The per-lawyer paragraph of the summary text (src/main.py lines 205-212). -/
def lawyerEntry (i : Nat) (l : Summary) : LC :=
  (toString i).data ++ (". ").data ++ l.name.data ++ ("\n").data ++
  ("   Availability: ").data ++ l.availability_status.data ++ ("\n").data ++
  ("   Schedule: ").data ++ l.days_available.data ++ (" days/week, ").data ++
    l.hours_available.data ++ ("/month\n").data ++
  ("   Practice Areas:\n").data ++ format_practice_areas l.practice_areas.data ++ ("\n").data ++
  (if l.experience ≠ "" then
    ("   Industry Experience:\n").data ++ format_practice_areas l.experience.data ++ ("\n").data
   else []) ++
  ("\n").data

def lawyerEntries : Nat → List Summary → LC
  | _, [] => []
  | i, l :: rest => lawyerEntry i l ++ lawyerEntries (i + 1) rest

/-- summary_text (src/main.py lines 204-212), enumerating lawyers from 1. -/
def summaryText (ls : List Summary) : LC :=
  ("Available Lawyers and Their Expertise:\n\n").data ++ lawyerEntries 1 ls

/-- The prompt sent to the backend (src/main.py lines 214-239). -/
def promptOf (query : String) (ls : List Summary) : LC :=
  ("You are a legal staffing assistant at Caravel Law. Your task is to match client needs with available lawyers based on their expertise and availability.\n\nClient Need: ").data
  ++ query.data ++ ("\n\n").data ++ summaryText ls ++
  ("\n\nPlease analyze the lawyers\x27 profiles and provide the best 3-7 matches in a structured format suitable for creating a table. Format your response exactly like this example, maintaining the exact delimiter structure:\n\nMATCH_START\nRank: 1\nName: John Smith\nKey Expertise: Corporate Law, M&A\nAvailability: 3 days/week\nRecommendation Reason: 15+ years handling similar corporate transactions with emphasis on tech sector\nMATCH_END\n\nMATCH_START\nRank: 2\n[Continue with next match]\n\nImportant guidelines:\n- Provide 3-7 matches only\n- Keep the Recommendation Reason specific but concise (max 150 characters)\n- Focus on concrete experience and specific expertise that matches the client\x27s needs\n- Use the exact delimiters shown above\n- Only include lawyers whose expertise truly matches the needs").data

/-- Outcome of one call to the opaque generative backend: a response text,
the distinguished rate-limit error, or any other exception. -/
inductive CallResult
  | ok (text : String)
  | rateLimited
  | otherError
deriving DecidableEq

/-- get_claude_response (src/main.py lines 202-253).  The backend is an
opaque collaborator: backend prompt n is the outcome the API would give to
the n-th call with that prompt.  The source makes exactly one call inside a
try/except that catches every exception (including rate limits and any
exception escaping parse_claude_response) and returns None after showing an
error.  The result is paired with the number of calls made and the list of
executed sleep delays, both observable effects the specification
constrains. -/
def get_claude_response (query : String) (ls : List Summary)
    (backend : LC → Nat → CallResult) : Option (List Row) × Nat × List Nat :=
  let prompt := promptOf query ls
  match backend prompt 0 with
  | .ok text =>
    match parse_claude_response text.data with
    | .ok rows => (some rows, 1, [])
    | .error _ => (none, 1, [])
  | .rateLimited => (none, 1, [])
  | .otherError => (none, 1, [])

/-- display_recommendations (src/main.py lines 283-326): the rows rendered
in the results table; an empty or absent result shows a warning and renders
nothing. -/
def display_recommendations (query : String) (ls : List Summary)
    (backend : LC → Nat → CallResult) : List Row :=
  match (get_claude_response query ls backend).1 with
  | some rows => if rows.isEmpty then [] else rows
  | none => []

/-- Modelled from the spec: the Recommendation Requester of section 4.4,
retrying a rate-limited call up to 5 attempts with exponential backoff
doubling from 1 second, sleeping between attempts.  Written only for
comparison against get_claude_response. -/
def spec_requestLoop (calls : Nat → CallResult) :
    Nat → Nat → Nat → List Nat → Option String × Nat × List Nat
  | 0, made, _, sleeps => (none, made, sleeps.reverse)
  | fuel + 1, made, delay, sleeps =>
    match calls made with
    | .ok t => (some t, made + 1, sleeps.reverse)
    | .rateLimited =>
      if fuel = 0 then (none, made + 1, sleeps.reverse)
      else spec_requestLoop calls fuel (made + 1) (delay * 2) (delay :: sleeps)
    | .otherError => (none, made + 1, sleeps.reverse)

/-- Modelled from the spec: a request with max 5 attempts, base delay 1. -/
def spec_request (calls : Nat → CallResult) : Option String × Nat × List Nat :=
  spec_requestLoop calls 5 0 1 []

example : spec_request (fun _ => .rateLimited) = (none, 5, [1, 2, 4, 8]) := by decide
example :
    spec_request (fun n => if n = 0 then .rateLimited else .ok "t") =
      (some "t", 2, [1]) := by decide

/-- One row of Corrected_Caravel_Law_Availability.csv, restricted to the
columns the code reads; a cell is none when it holds NaN. -/
structure AvailRow where
  whatIsYourName : Option String
  capacity : Option String
  days : Option String
  hours : Option String
deriving DecidableEq

/-- One row of BD_Caravel.csv, restricted to the columns the code reads.
The name columns are taken as present strings (the join expressions the
claims exercise are string-valued). -/
structure BioRow where
  firstName : String
  lastName : String
  practiceAreas : Option String
  industryExperience : Option String
deriving DecidableEq

/-- standardize_name applied to a cell, including the NaN / type guard of
src/main.py line 21: a NaN cell canonicalises to the empty string without
raising.  The outer none is a raised IndexError. -/
def stdCell (cell : Option String) : Option String :=
  match cell with
  | none => some ""
  | some s => standardize_name s

/-- Line 108: availability_data['What is your name?'].apply(standardize_name),
keeping each row with its key; none when some application raises. -/
def stdAvail : List AvailRow → Option (List (AvailRow × String))
  | [] => some []
  | r :: rs =>
    match stdCell r.whatIsYourName with
    | none => none
    | some k => (stdAvail rs).map (fun t => (r, k) :: t)

/-- Lines 110-112: keys of the bios rows from "First Name Last Name". -/
def stdBios : List BioRow → Option (List (BioRow × String))
  | [] => some []
  | b :: bs =>
    match standardize_name (b.firstName ++ " " ++ b.lastName) with
    | none => none
    | some k => (stdBios bs).map (fun t => (b, k) :: t)

/-- Python str() of the days cell: NaN prints as "nan" (line 162). -/
def dayStr (d : Option String) : String :=
  match d with
  | none => "nan"
  | some s => s

/-- The availability test of src/main.py lines 160-165 on the lowercased
capacity text and the days string. -/
def isAvailable (capacity : LC) (days : String) : Bool :=
  containsSub ("yes").data capacity || containsSub ("maybe").data capacity ||
  capacity.contains 'y' || capacity.contains 'm' ||
  days.data.any (fun c => c.isDigit && c ≠ '0')

/-- The summary dict built at src/main.py lines 171-184. -/
def mkSummary (b : BioRow) (a : AvailRow) : Summary :=
  ⟨b.firstName ++ " " ++ b.lastName,
   clean_text_field a.capacity,
   clean_text_field b.practiceAreas,
   clean_text_field b.industryExperience,
   clean_text_field a.days,
   clean_text_field a.hours⟩

/-- The per-bio loop of src/main.py lines 152-189: find the first
availability row with the same standardized name (iloc[0]); lowercase its
capacity cell (AttributeError, hence none, when the cell is NaN); include
the lawyer when the availability test passes. -/
def processBios (avStd : List (AvailRow × String)) :
    List (BioRow × String) → Option (List Summary)
  | [] => some []
  | (b, k) :: rest =>
    match avStd.find? (fun p => p.2 == k) with
    | none => processBios avStd rest
    | some (a, _) =>
      match a.capacity with
      | none => none
      | some cap =>
        if isAvailable (pyLower cap.data) (dayStr a.days) then
          (processBios avStd rest).map (fun t => mkSummary b a :: t)
        else processBios avStd rest

/-- prepare_lawyer_summary (src/main.py lines 93-199); none models an
exception escaping to main's handler. -/
def prepare_lawyer_summary (av : List AvailRow) (bios : List BioRow) :
    Option (List Summary) :=
  match stdAvail av with
  | none => none
  | some avStd =>
    match stdBios bios with
    | none => none
    | some biosStd => processBios avStd biosStd

/-- Standardized names present in the availability source. -/
def availKeys (av : List AvailRow) : List String :=
  av.filterMap (fun r => stdCell r.whatIsYourName)

/-- Standardized names present in the bios source. -/
def biosKeys (bios : List BioRow) : List String :=
  bios.filterMap (fun b => standardize_name (b.firstName ++ " " ++ b.lastName))

theorem stdAvail_mem (av : List AvailRow) (out : List (AvailRow × String))
    (h : stdAvail av = some out) :
    ∀ p ∈ out, p.1 ∈ av ∧ stdCell p.1.whatIsYourName = some p.2 := by
  induction av generalizing out with
  | nil =>
    simp only [stdAvail] at h
    cases h
    simp
  | cons r rs ih =>
    simp only [stdAvail] at h
    cases hk : stdCell r.whatIsYourName with
    | none => rw [hk] at h; cases h
    | some k =>
      rw [hk] at h
      cases ht : stdAvail rs with
      | none => rw [ht] at h; cases h
      | some t =>
        rw [ht] at h
        simp only [Option.map_some] at h
        cases h
        intro p hp
        rcases List.mem_cons.mp hp with h1 | h1
        · rw [h1]
          exact ⟨by simp, hk⟩
        · obtain ⟨hmem, heq⟩ := ih t ht p h1
          exact ⟨by simp [hmem], heq⟩

theorem stdBios_mem (bios : List BioRow) (out : List (BioRow × String))
    (h : stdBios bios = some out) :
    ∀ p ∈ out, p.1 ∈ bios ∧
      standardize_name (p.1.firstName ++ " " ++ p.1.lastName) = some p.2 := by
  induction bios generalizing out with
  | nil =>
    simp only [stdBios] at h
    cases h
    simp
  | cons b bs ih =>
    simp only [stdBios] at h
    cases hk : standardize_name (b.firstName ++ " " ++ b.lastName) with
    | none => rw [hk] at h; cases h
    | some k =>
      rw [hk] at h
      cases ht : stdBios bs with
      | none => rw [ht] at h; cases h
      | some t =>
        rw [ht] at h
        simp only [Option.map_some] at h
        cases h
        intro p hp
        rcases List.mem_cons.mp hp with h1 | h1
        · rw [h1]
          exact ⟨by simp, hk⟩
        · obtain ⟨hmem, heq⟩ := ih t ht p h1
          exact ⟨by simp [hmem], heq⟩

theorem processBios_mem (avStd : List (AvailRow × String))
    (l : List (BioRow × String)) (out : List Summary)
    (h : processBios avStd l = some out) :
    ∀ s ∈ out, ∃ b k a, (b, k) ∈ l ∧ (a, k) ∈ avStd ∧ s = mkSummary b a := by
  induction l generalizing out with
  | nil =>
    simp only [processBios] at h
    cases h
    simp
  | cons p rest ih =>
    obtain ⟨b, k⟩ := p
    simp only [processBios] at h
    cases hf : avStd.find? (fun p => p.2 == k) with
    | none =>
      rw [hf] at h
      intro s hs
      obtain ⟨b', k', a', h1, h2, h3⟩ := ih out h s hs
      exact ⟨b', k', a', by simp [h1], h2, h3⟩
    | some q =>
      obtain ⟨a, k'⟩ := q
      have hk' : k' = k := by
        have := List.find?_some hf
        simpa using this
      have hav : (a, k) ∈ avStd := by
        rw [← hk']
        exact List.mem_of_find?_eq_some hf
      rw [hf] at h
      dsimp only at h
      cases hcap : a.capacity with
      | none => rw [hcap] at h; cases h
      | some cap =>
        rw [hcap] at h
        dsimp only at h
        by_cases hava : isAvailable (pyLower cap.data) (dayStr a.days) = true
        · rw [if_pos hava] at h
          cases hrest : processBios avStd rest with
          | none => rw [hrest] at h; cases h
          | some t =>
            rw [hrest] at h
            cases h
            intro s hs
            rcases List.mem_cons.mp hs with h1 | h1
            · exact ⟨b, k, a, by simp, hav, h1⟩
            · obtain ⟨b', k2, a', h2, h3, h4⟩ := ih t hrest s h1
              exact ⟨b', k2, a', by simp [h2], h3, h4⟩
        · rw [if_neg hava] at h
          intro s hs
          obtain ⟨b', k2, a', h2, h3, h4⟩ := ih out h s hs
          exact ⟨b', k2, a', by simp [h2], h3, h4⟩

/-- float() applied to the digit-and-dot characters extracted by the
availability filter (src/main.py line 423); none is the ValueError the
surrounding try/except catches. -/
def parseDotFloat (l : LC) : Option ℚ :=
  match splitOnSub ['.'] l with
  | [d] => if d.isEmpty then none else some (mkRat (digitsVal d) 1)
  | [a, b] =>
    if a.isEmpty && b.isEmpty then none
    else some (mkRat (digitsVal a * 10 ^ b.length + digitsVal b) (10 ^ b.length))
  | _ => none

/-- Days-per-week extraction of src/main.py lines 418-426: lowercase the
days text, require some digit, take the first whitespace token, keep its
digit and dot characters, parse as float; none means the lawyer is skipped
(continue), either for lack of digits or for a caught ValueError. -/
def extractDays (days_available : String) : Option ℚ :=
  let ds := pyLower days_available.data
  if ds.any Char.isDigit then
    parseDotFloat (((pySplitWS ds).headD []).filter (fun c => c.isDigit || c = '.'))
  else none

/-- The if/elif ladder of src/main.py lines 429-434. -/
def availKeep (availability_filter : String) (days : ℚ) : Bool :=
  if containsSub ("High Availability").data availability_filter.data ∧ mkRat 3 1 ≤ days then
    true
  else if containsSub ("Medium Availability").data availability_filter.data ∧
      mkRat 1 1 ≤ days ∧ days < mkRat 3 1 then
    true
  else if containsSub ("Limited Availability").data availability_filter.data ∧
      days < mkRat 1 1 then
    true
  else false

/-- The availability filter loop of src/main.py lines 415-445. -/
def availFilterFn (availability_filter : String) (ls : List Summary) : List Summary :=
  ls.filterMap (fun l =>
    match extractDays l.days_available with
    | none => none
    | some d => if availKeep availability_filter d then some l else none)

/-- Outcome of loading the two CSV files at src/main.py lines 333-334. -/
inductive LoadResult
  | ok (av : List AvailRow) (bios : List BioRow)
  | fileNotFound
  | loadError
deriving DecidableEq

/-- Observable outcome of one run of main for a given search interaction.
uncaught: an exception escapes main and the program crashes (this happens
when a load failure reaches the handlers at lines 486-495, which read the
variable show_debug that is only assigned at line 340, raising NameError
inside the handler).  errorReturn: st.error plus return.  shown: the
recommendation table is rendered with these rows.  noMatches: the
recommendation path ran but showed the no-matching-lawyers warning (zero
recommendations).  cards: no search, the card grid is rendered for these
lawyers. -/
inductive Outcome
  | uncaught
  | errorReturn (msg : String)
  | shown (rows : List Row)
  | noMatches
  | cards (ls : List Summary)
deriving DecidableEq

/-- The function main of src/main.py (lines 328-495) on the search path
(Lean reserves the name main for executables, hence the suffix), with the two
sidebar filters and the query as inputs and show_debug left at its default
False.  Everything from line 340 to line 484 runs inside the try with both
handlers able to reference show_debug, so any exception there is caught;
an exception during loading reaches a handler whose body itself raises
NameError, which escapes. -/
def main_model (load : LoadResult) (practiceFilter availabilityFilter : String)
    (query : String) (search : Bool) (backend : LC → Nat → CallResult) : Outcome :=
  match load with
  | .fileNotFound => .uncaught
  | .loadError => .uncaught
  | .ok av bios =>
    match prepare_lawyer_summary av bios with
    | none => .errorReturn "An error occurred while processing the data."
    | some ls =>
      if ls.isEmpty then
        .errorReturn "No available lawyers found in the system. Please check the data processing above."
      else
        let f1 :=
          if practiceFilter ≠ "All" then
            ls.filter (fun l => containsSub practiceFilter.data l.practice_areas.data)
          else ls
        let f2 :=
          if availabilityFilter ≠ "All" then availFilterFn availabilityFilter f1 else f1
        if search ∧ query ≠ "" then
          match (get_claude_response query f2 backend).1 with
          | some rows => if rows.isEmpty then .noMatches else .shown rows
          | none => .noMatches
        else .cards f2

/-- A pandas DataFrame for the mutation analysis: named columns of cells
(none is NaN), column-major. -/
abbrev Table := List (String × List (Option String))

/-- Column read; pandas raises for a missing column, but the columns read
here are the ones the app loads, so a missing column is given as []. -/
def getCol (name : String) : Table → List (Option String)
  | [] => []
  | (n, v) :: rest => if n = name then v else getCol name rest

/-- Column assignment df[name] = vals: replace the column in place when it
exists, append it otherwise. -/
def setCol (name : String) (vals : List (Option String)) : Table → Table
  | [] => [(name, vals)]
  | (n, v) :: rest =>
    if n = name then (name, vals) :: rest else (n, v) :: setCol name vals rest

/-- The heap of live pandas objects: the table at index i is one DataFrame
object; df.copy() allocates a fresh index, column assignment mutates the
table at an index in place.  Callers hold indices. -/
abbrev Heap := List Table

def heapGet (h : Heap) (i : Nat) : Table := h.getD i []

def heapSet (h : Heap) (i : Nat) (t : Table) : Heap := h.set i t

/-- Python str() formatting of a cell for the f-string at line 112: NaN
formats as "nan". -/
def fmtCell (c : Option String) : String :=
  match c with
  | none => "nan"
  | some s => s

/-- Line 108: the standardized-name column of the availability copy; none
when some cell raises IndexError inside apply. -/
def stdNameCol (col : List (Option String)) : Option (List (Option String)) :=
  col.mapM (fun c => (stdCell c).map some)

/-- Line 110: bios Original_Name = First Name + ' ' + Last Name, with
pandas NaN propagation through +. -/
def bioOrigCol (firsts lasts : List (Option String)) : List (Option String) :=
  List.zipWith
    (fun a b =>
      match a, b with
      | some x, some y => some (x ++ " " ++ y)
      | _, _ => none)
    firsts lasts

/-- Lines 111-112: bios Standardized_Name via the f-string (NaN prints as
"nan"); none when some row raises IndexError. -/
def bioStdCol (firsts lasts : List (Option String)) : Option (List (Option String)) :=
  (List.zipWith (fun a b => fmtCell a ++ " " ++ fmtCell b) firsts lasts).mapM
    (fun s => (standardize_name s).map some)

/-- Lines 102-112 of prepare_lawyer_summary as heap transitions: both
frames are copied to fresh indices (lines 103-104) and the four column
assignments (lines 107-112) mutate only the copies.  The Bool reports
whether an exception interrupted the sequence (later writes skipped); every
write before the interruption already targeted a fresh index. -/
def prepare_heap (h : Heap) (avRef bioRef : Nat) : Heap × Bool :=
  let avL := h.length
  let h1 := h ++ [heapGet h avRef]
  let bioL := h1.length
  let h2 := h1 ++ [heapGet h1 bioRef]
  let h3 := heapSet h2 avL
    (setCol "Original_Name" (getCol "What is your name?" (heapGet h2 avL)) (heapGet h2 avL))
  match stdNameCol (getCol "What is your name?" (heapGet h3 avL)) with
  | none => (h3, true)
  | some stdcol =>
    let h4 := heapSet h3 avL (setCol "Standardized_Name" stdcol (heapGet h3 avL))
    let h5 := heapSet h4 bioL
      (setCol "Original_Name"
        (bioOrigCol (getCol "First Name" (heapGet h4 bioL))
          (getCol "Last Name" (heapGet h4 bioL)))
        (heapGet h4 bioL))
    match bioStdCol (getCol "First Name" (heapGet h5 bioL))
        (getCol "Last Name" (heapGet h5 bioL)) with
    | none => (h5, true)
    | some bstd =>
      (heapSet h5 bioL (setCol "Standardized_Name" bstd (heapGet h5 bioL)), false)

theorem heapGet_append_lt (h : Heap) (t : Table) (i : Nat) (hi : i < h.length) :
    heapGet (h ++ [t]) i = heapGet h i := by
  unfold heapGet
  simp only [List.getD_eq_getElem?_getD]
  rw [List.getElem?_append_left hi]

theorem heapGet_set_ne (h : Heap) (j : Nat) (t : Table) (i : Nat) (hij : i ≠ j) :
    heapGet (heapSet h j t) i = heapGet h i := by
  unfold heapGet heapSet
  simp only [List.getD_eq_getElem?_getD]
  rw [List.getElem?_set_ne (Ne.symm hij)]

theorem prepare_heap_frame (h : Heap) (avRef bioRef : Nat) (i : Nat)
    (hi : i < h.length) :
    heapGet ((prepare_heap h avRef bioRef).1) i = heapGet h i := by
  have hneA : i ≠ h.length := Nat.ne_of_lt hi
  have hiB : i < (h ++ [heapGet h avRef]).length := by
    simp only [List.length_append, List.length_cons, List.length_nil]
    omega
  have hneB : i ≠ (h ++ [heapGet h avRef]).length := Nat.ne_of_lt hiB
  unfold prepare_heap
  dsimp only
  split
  · rw [heapGet_set_ne _ _ _ _ hneA, heapGet_append_lt _ _ _ hiB,
      heapGet_append_lt _ _ _ hi]
  · split
    · rw [heapGet_set_ne _ _ _ _ hneB, heapGet_set_ne _ _ _ _ hneA,
        heapGet_set_ne _ _ _ _ hneA, heapGet_append_lt _ _ _ hiB,
        heapGet_append_lt _ _ _ hi]
    · rw [heapGet_set_ne _ _ _ _ hneB, heapGet_set_ne _ _ _ _ hneB,
        heapGet_set_ne _ _ _ _ hneA, heapGet_set_ne _ _ _ _ hneA,
        heapGet_append_lt _ _ _ hiB, heapGet_append_lt _ _ _ hi]

deriving instance DecidableEq for Except

/-- Canonical keys of the candidate lawyers a prompt was built from. -/
def summaryKeys (ls : List Summary) : List String :=
  ls.filterMap (fun s => standardize_name s.name)

def c2text : String :=
  "MATCH_START\nRank: 1\nName: John Smith\nKey Expertise: Corporate Law\nAvailability: 3 days/week\nRecommendation Reason: Strong corporate background\nMATCH_END\n\nMATCH_START\nRank: 2\nName: Jane Roe\nKey Expertise: IP Law\nAvailability: 2 days/week\nMATCH_END"

def c2row1 : Row :=
  ⟨some (mkRat 1 1), some ("John Smith").data, some ("Corporate Law").data,
    some ("3 days/week").data, some ("Strong corporate background").data⟩

def c2row2 : Row :=
  ⟨some (mkRat 2 1), some ("Jane Roe").data, some ("IP Law").data,
    some ("2 days/week").data, none⟩

example : parse_claude_response c2text.data = Except.ok [c2row1, c2row2] := by decide

def c2keyErrText : String := "MATCH_START\nName: Solo Person\nMATCH_END"

def c2valErrText : String :=
  "MATCH_START\nRank: abc\nName: X\nKey Expertise: Y\nAvailability: Z\nRecommendation Reason: W\nMATCH_END"

def c2noColonText : String := "MATCH_START\njust text with no delimiter\nMATCH_END"

example : parse_claude_response c2keyErrText.data = Except.error PyError.keyError := by decide
example : parse_claude_response c2valErrText.data = Except.error PyError.valueError := by decide
example : parse_claude_response c2noColonText.data = Except.ok [] := by decide

def c5text : String :=
  "MATCH_START\nRank: 5\nName: John Smith\nKey Expertise: Corporate Law\nAvailability: 3 days/week\nRecommendation Reason: Deep expertise\nMATCH_END\n\nMATCH_START\nRank: 2\nName: John Smith\nKey Expertise: IP Law\nAvailability: 3 days/week\nRecommendation Reason: Also strong\nMATCH_END"

def c5row5 : Row :=
  ⟨some (mkRat 5 1), some ("John Smith").data, some ("Corporate Law").data,
    some ("3 days/week").data, some ("Deep expertise").data⟩

def c5row2 : Row :=
  ⟨some (mkRat 2 1), some ("John Smith").data, some ("IP Law").data,
    some ("3 days/week").data, some ("Also strong").data⟩

example : parse_claude_response c5text.data = Except.ok [c5row2, c5row5] := by decide

def c1text : String :=
  "MATCH_START\nRank: 1\nName: Zed Example\nKey Expertise: IP Law\nAvailability: 1 day/week\nRecommendation Reason: Invented by the model\nMATCH_END"

def c1zedRow : Row :=
  ⟨some (mkRat 1 1), some ("Zed Example").data, some ("IP Law").data,
    some ("1 day/week").data, some ("Invented by the model").data⟩

def c1alice : Summary := ⟨"Alice Ash", "yes", "Corporate", "", "3", "60"⟩

example :
    display_recommendations "need ip help" [c1alice]
      (fun _ _ => CallResult.ok c1text) = [c1zedRow] := by decide
example : summaryKeys [c1alice] = ["alice ash"] := by decide
example : standardize_name "Zed Example" = some "zed example" := by decide

def c6avail : List AvailRow := [⟨some "jane doe", some "yes", some "3", some "60"⟩]

def c6bios : List BioRow :=
  [⟨"Jane", "Doe", some "Corporate", some "Tech"⟩, ⟨"JANE", "DOE", some "Tax", none⟩]

def c6s1 : Summary := ⟨"Jane Doe", "yes", "Corporate", "Tech", "3", "60"⟩

def c6s2 : Summary := ⟨"JANE DOE", "yes", "Tax", "", "3", "60"⟩

example : prepare_lawyer_summary c6avail c6bios = some [c6s1, c6s2] := by decide
example : standardize_name c6s1.name = standardize_name c6s2.name := by decide

def c8av : List AvailRow := [⟨some "alice ash", some "yes", some "3", some "60"⟩]

def c8bios : List BioRow := [⟨"Alice", "Ash", some "Corporate", none⟩]

def c8sum : Summary := ⟨"Alice Ash", "yes", "Corporate", "", "3", "60"⟩

example : prepare_lawyer_summary c8av c8bios = some [c8sum] := by decide
example :
    main_model (LoadResult.ok c8av c8bios) "All" "All" "ip help" true
      (fun _ _ => CallResult.otherError) = Outcome.noMatches := by decide

def c10heap : Heap :=
  [[("What is your name?", [some "Jane Doe"])],
   [("First Name", [some "Jane"]), ("Last Name", [some "Doe"])]]

/-- Evaluating get_claude_response under a backend that always fails. -/
theorem get_claude_response_fail (q : String) (ls : List Summary)
    (backend : LC → Nat → CallResult)
    (hfail : ∀ p n, backend p n = CallResult.rateLimited ∨
      backend p n = CallResult.otherError) :
    (get_claude_response q ls backend).1 = none := by
  unfold get_claude_response
  dsimp only
  rcases hfail (promptOf q ls) 0 with hb | hb <;> rw [hb]

/-- C1, counterexample.  With candidate set consisting only of Alice Ash, a
backend response recommending the invented name Zed Example is displayed
anyway: the canonical key zed example of the parsed name is not in the
candidate key set, yet the row is in the final output and nothing counts a
hallucinated drop, so the anti-hallucination invariant fails on the code. -/
theorem C1_counterexample_hallucinated_name_kept :
    display_recommendations "need ip help" [c1alice]
        (fun _ _ => CallResult.ok c1text) = [c1zedRow] ∧
      standardize_name "Zed Example" = some "zed example" ∧
      summaryKeys [c1alice] = ["alice ash"] ∧
      "zed example" ∉ summaryKeys [c1alice] := by
  refine ⟨by decide, by decide, by decide, by decide⟩

/-- C1, amended.  No validation against the candidate set is performed: the
displayed list is exactly the row list parsed from the backend response,
whatever the candidate profiles were, and hallucinated names are neither
dropped nor counted. -/
theorem C1_output_is_parsed_rows (q : String) (ls : List Summary)
    (backend : LC → Nat → CallResult) (text : String) (rows : List Row)
    (hb : backend (promptOf q ls) 0 = CallResult.ok text)
    (hp : parse_claude_response text.data = Except.ok rows) :
    display_recommendations q ls backend = rows := by
  unfold display_recommendations get_claude_response
  dsimp only
  rw [hb]
  dsimp only
  rw [hp]
  cases rows with
  | nil => rfl
  | cons r rs => rfl

/-- C1, witness for the amended theorem. -/
theorem C1_witness :
    display_recommendations "need ip help" [c1alice]
      (fun _ _ => CallResult.ok c1text) = [c1zedRow] :=
  C1_output_is_parsed_rows "need ip help" [c1alice]
    (fun _ _ => CallResult.ok c1text) c1text [c1zedRow] rfl (by decide)

/-- C2, counterexample.  A text with one well-formed block and one block
missing the Recommendation Reason field parses to two rows, not one: the
incomplete block is kept with a NaN reason cell instead of being dropped. -/
theorem C2_counterexample_missing_reason_kept :
    parse_claude_response c2text.data = Except.ok [c2row1, c2row2] ∧
      c2row2.reason = none ∧ [c2row1, c2row2].length ≠ 1 := by
  refine ⟨by decide, by decide, by decide⟩

/-- C2, amended.  A block with no key-value line is dropped; a block
missing some required fields is kept with NaN cells as long as each
required column occurs in at least one block, so the one-well-formed plus
one-missing-reason text yields two MatchResults; and the parser can raise:
KeyError when a required column occurs in no block, ValueError when a rank
is not numeric. -/
theorem C2_parser_keeps_incomplete_blocks_and_can_raise :
    parse_claude_response c2text.data = Except.ok [c2row1, c2row2] ∧
      parse_claude_response c2noColonText.data = Except.ok [] ∧
      parse_claude_response c2keyErrText.data = Except.error PyError.keyError ∧
      parse_claude_response c2valErrText.data = Except.error PyError.valueError := by
  refine ⟨by decide, by decide, by decide, by decide⟩

/-- C3, counterexample.  standardize_name is not idempotent: james moss
canonicalises to james mos, which canonicalises further to james mo, so
applying the function to its own output changes the string. -/
theorem C3_counterexample_not_idempotent :
    (standardize_name "james moss").bind standardize_name ≠
      standardize_name "james moss" ∧
      standardize_name "james moss" = some "james mos" ∧
      standardize_name "james mos" = some "james mo" := by
  refine ⟨by decide, by decide, by decide⟩

/-- C3, amended.  The canonical key depends only on the lowercased
whitespace tokenisation of the input, hence is insensitive to letter case
and to surrounding or extra whitespace; but it is not idempotent, because
each application can strip one more trailing s. -/
theorem C3_case_ws_insensitive_not_idempotent :
    (∀ s t : String, pySplitWS (pyLower s.data) = pySplitWS (pyLower t.data) →
        standardize_name s = standardize_name t) ∧
      (standardize_name "james moss").bind standardize_name ≠
        standardize_name "james moss" := by
  constructor
  · intro s t h
    unfold standardize_name
    rw [pySplitWS_pyStrip, pySplitWS_pyStrip, h]
  · decide

/-- C3, witness: the case/whitespace-insensitivity part applied to a
concrete pair of names differing only in case and spacing. -/
theorem C3_witness :
    standardize_name "  JANE Doe " = standardize_name "jane doe" :=
  C3_case_ws_insensitive_not_idempotent.1 "  JANE Doe " "jane doe" (by decide)

/-- C4, counterexample.  Under a permanently rate-limited backend the
specified requester would make 5 attempts sleeping 1, 2, 4, 8 seconds, but
get_claude_response makes a single call, sleeps never, and returns None. -/
theorem C4_counterexample_no_retry :
    spec_request (fun _ => CallResult.rateLimited) = (none, 5, [1, 2, 4, 8]) ∧
      get_claude_response "query" [] (fun _ _ => CallResult.rateLimited) =
        (none, 1, []) ∧
      (get_claude_response "query" [] (fun _ _ => CallResult.rateLimited)).2 ≠
        (spec_request (fun _ => CallResult.rateLimited)).2 := by
  refine ⟨by decide, by decide, by decide⟩

/-- C4, amended.  On every backend outcome get_claude_response makes
exactly one call and performs no backoff sleep, and on a rate-limited
outcome it returns None (the batch is failed immediately, no retry). -/
theorem C4_single_attempt_no_backoff (q : String) (ls : List Summary)
    (backend : LC → Nat → CallResult) :
    (get_claude_response q ls backend).2 = (1, []) ∧
      (backend (promptOf q ls) 0 = CallResult.rateLimited →
        (get_claude_response q ls backend).1 = none) := by
  unfold get_claude_response
  dsimp only
  cases hb : backend (promptOf q ls) 0 with
  | ok text =>
    refine ⟨?_, ?_⟩
    · dsimp only
      cases hp : parse_claude_response text.data with
      | ok rows => rfl
      | error e => rfl
    · intro hr
      cases hr
  | rateLimited => exact ⟨rfl, fun _ => rfl⟩
  | otherError =>
    refine ⟨rfl, ?_⟩
    intro hr
    cases hr

/-- C4, witness for the amended theorem. -/
theorem C4_witness :
    (get_claude_response "query" [] (fun _ _ => CallResult.rateLimited)).1 = none ∧
      (get_claude_response "query" [] (fun _ _ => CallResult.rateLimited)).2 = (1, []) :=
  ⟨(C4_single_attempt_no_backoff "query" [] (fun _ _ => CallResult.rateLimited)).2 rfl,
   (C4_single_attempt_no_backoff "query" [] (fun _ _ => CallResult.rateLimited)).1⟩

/-- C5, counterexample.  Two blocks naming the same lawyer with reported
ranks 5 and 2 survive as two rows: no deduplication by canonical key
happens, and the rank column is the sorted reported ranks 2, 5 rather than
a re-ranked 1, 2. -/
theorem C5_counterexample_no_dedup_no_rerank :
    parse_claude_response c5text.data = Except.ok [c5row2, c5row5] ∧
      c5row2.name = c5row5.name ∧
      [c5row2, c5row5].map Row.rank = [some (mkRat 2 1), some (mkRat 5 1)] ∧
      [c5row2, c5row5].map Row.rank ≠ [some (mkRat 1 1), some (mkRat 2 1)] := by
  refine ⟨by decide, by decide, by decide, by decide⟩

/-- C5, amended.  Parsed entries are only sorted ascending by their
originally-reported numeric rank (NaN last): every successfully returned
row list is rank-sorted, with no deduplication and no re-ranking to 1..N. -/
theorem C5_rows_sorted_by_reported_rank (response : LC) (rows : List Row)
    (h : parse_claude_response response = Except.ok rows) :
    rows.Pairwise (fun a b => rankLE a.rank b.rank = true) :=
  parse_claude_response_sorted response rows h

/-- C5, witness for the amended theorem. -/
theorem C5_witness :
    List.Pairwise (fun a b => rankLE a.rank b.rank = true) [c5row2, c5row5] :=
  C5_rows_sorted_by_reported_rank c5text.data [c5row2, c5row5] (by decide)

/-- C6, counterexample.  Two bios rows whose names share the canonical key
jane doe, joined against one availability row with that key, produce two
summary entries with the same canonical key: a key present in both sources
does not yield exactly one resolved profile and entry keys are not unique
(and nothing in the return value lists unmatched keys). -/
theorem C6_counterexample_duplicate_keys :
    prepare_lawyer_summary c6avail c6bios = some [c6s1, c6s2] ∧
      standardize_name c6s1.name = standardize_name c6s2.name ∧
      c6s1 ≠ c6s2 := by
  refine ⟨by decide, by decide, by decide⟩

/-- C6, amended.  Whenever prepare_lawyer_summary returns, every produced
summary entry has a canonical key that is present in both sources (one
entry is produced per bios row whose key matches an availability row and
passes the availability check, so keys need not be unique, and keys found
in only one source yield no entry; no unmatched lists are returned). -/
theorem C6_summary_keys_in_both_sources (av : List AvailRow)
    (bios : List BioRow) (out : List Summary)
    (h : prepare_lawyer_summary av bios = some out) :
    ∀ s ∈ out, ∃ k, standardize_name s.name = some k ∧
      k ∈ availKeys av ∧ k ∈ biosKeys bios := by
  unfold prepare_lawyer_summary at h
  cases hav : stdAvail av with
  | none => rw [hav] at h; cases h
  | some avStd =>
    rw [hav] at h
    dsimp only at h
    cases hbi : stdBios bios with
    | none => rw [hbi] at h; cases h
    | some biosStd =>
      rw [hbi] at h
      dsimp only at h
      intro s hs
      obtain ⟨b, k, a, hbk, hak, hsum⟩ := processBios_mem avStd biosStd out h s hs
      obtain ⟨hbmem, hbeq⟩ := stdBios_mem bios biosStd hbi (b, k) hbk
      obtain ⟨hamem, haeq⟩ := stdAvail_mem av avStd hav (a, k) hak
      refine ⟨k, ?_, ?_, ?_⟩
      · rw [hsum]
        exact hbeq
      · exact List.mem_filterMap.mpr ⟨a, hamem, haeq⟩
      · exact List.mem_filterMap.mpr ⟨b, hbmem, hbeq⟩

/-- C6, witness for the amended theorem. -/
theorem C6_witness :
    ∃ k, standardize_name c6s1.name = some k ∧
      k ∈ availKeys c6avail ∧ k ∈ biosKeys c6bios :=
  C6_summary_keys_in_both_sources c6avail c6bios [c6s1, c6s2] (by decide)
    c6s1 (by decide)

/-- C7, counterexample.  On the single-token name jones the specified step
list yields jone, but standardize_name yields a string with a leading
space, because line 32 rebuilds the name as the join of an empty token
list, a space, and the shortened last token. -/
theorem C7_counterexample_single_token_space :
    spec_standardize_steps "jones" = some "jone" ∧
      standardize_name "jones" = some " jone" ∧
      spec_standardize_steps "jones" ≠ standardize_name "jones" := by
  refine ⟨by decide, by decide, by decide⟩

/-- C7, amended.  With the final step restated as the code computes it (the
name is rebuilt as join of all but the last token, then a space, then the
last token without its trailing s, prepending a space when only one token
remains) the step list computes standardize_name exactly, on every name
string. -/
theorem C7_amended_pipeline (name : String) :
    spec_standardize_amended name = standardize_name name :=
  spec_standardize_amended_eq name

/-- C8.  After a successful data load, main never lets an exception escape,
whatever the filters, query, search flag and backend behaviour; and with a
backend whose calls always fail (rate-limited or otherwise) the search path
ends in the no-matching-lawyers warning with zero recommendations rather
than a crash.  Only the data-load failure branches are fatal. -/
theorem C8_only_load_failure_fatal :
    (∀ av bios pf af q s backend,
        main_model (LoadResult.ok av bios) pf af q s backend ≠ Outcome.uncaught) ∧
      (∀ av bios ls pf af q backend,
        prepare_lawyer_summary av bios = some ls → ls ≠ [] → q ≠ "" →
        (∀ p n, backend p n = CallResult.rateLimited ∨
          backend p n = CallResult.otherError) →
        main_model (LoadResult.ok av bios) pf af q true backend =
          Outcome.noMatches) := by
  constructor
  · intro av bios pf af q s backend
    unfold main_model
    dsimp only
    cases hp : prepare_lawyer_summary av bios with
    | none => simp
    | some ls =>
      dsimp only
      split
      · simp
      · split
        · split
          · split <;> simp
          · simp
        · simp
  · intro av bios ls pf af q backend hprep hne hq hfail
    unfold main_model
    dsimp only
    rw [hprep]
    dsimp only
    have hie : ls.isEmpty = false := by
      cases ls with
      | nil => exact absurd rfl hne
      | cons a t => rfl
    rw [if_neg (by simp [hie])]
    rw [if_pos ⟨rfl, hq⟩]
    rw [get_claude_response_fail q _ backend hfail]

/-- C8, witness. -/
theorem C8_witness :
    main_model (LoadResult.ok c8av c8bios) "All" "All" "ip help" true
      (fun _ _ => CallResult.otherError) = Outcome.noMatches :=
  C8_only_load_failure_fatal.2 c8av c8bios [c8sum] "All" "All" "ip help"
    (fun _ _ => CallResult.otherError) (by decide) (by decide) (by decide)
    (fun _ _ => Or.inr rfl)

/-- C9.  standardize_name is not total on strings passing the NaN guard:
the empty string, a whitespace-only string, and a name whose every token
contains a parenthesis all reach name.split()[-1] with an empty split and
raise IndexError (modelled as none). -/
theorem C9_raises_on_degenerate_names :
    standardize_name "" = none ∧ standardize_name "   " = none ∧
      standardize_name "(ab) (cd)" = none := by
  refine ⟨by decide, by decide, by decide⟩

/-- C10.  The caller-visible tables are untouched by prepare_lawyer_summary:
lines 103-104 copy both frames to fresh heap cells and every column
assignment of lines 107-112 mutates only the copies, so after the call (or
after an interrupting exception) every previously existing heap index still
holds its old table. -/
theorem C10_no_caller_mutation (h : Heap) (avRef bioRef i : Nat)
    (hi : i < h.length) :
    heapGet ((prepare_heap h avRef bioRef).1) i = heapGet h i :=
  prepare_heap_frame h avRef bioRef i hi

/-- C10, witness. -/
theorem C10_witness :
    heapGet ((prepare_heap c10heap 0 1).1) 0 = heapGet c10heap 0 :=
  C10_no_caller_mutation c10heap 0 1 0 (by decide)
